import Mathlib

/-!
Shallow embedding of the downstream sync engine of `sync/downstream.py`
(wpt-sync).  Python strings become `String`, Python lists become `List`,
Python sets become first-occurrence-deduplicated lists, fallible external
commands (git, mach) become `Except`-valued oracles packaged in an
environment record, and the mutable world (git branch tips, the Sync row,
bugzilla comments) becomes explicit state passed through the functions.
All Python string primitives (`split`, `strip`, `startswith`, `endswith`,
`os.path.basename`, `os.path.join`) are modelled as executable functions
over the character list of the string, so every definition evaluates by
kernel reduction on concrete inputs.
-/

namespace WptSync

/-! ## String helpers: Python string methods and `os.path` functions -/

/-- Python `s.startswith(pre)`. -/
def pyStartsWith (s pre : String) : Bool := pre.data.isPrefixOf s.data

/-- Python `s.endswith(suf)`. -/
def pyEndsWith (s suf : String) : Bool := suf.data.isSuffixOf s.data

/-- Python whitespace for `str.strip()`. -/
def pySpaceChar (c : Char) : Bool :=
  c = ' ' || c = '\t' || c = '\n' || c = '\r' || c = '\x0b' || c = '\x0c'

/-- Python `s.strip()`: remove leading and trailing whitespace. -/
def pyStrip (s : String) : String :=
  String.mk (((s.data.dropWhile pySpaceChar).reverse.dropWhile pySpaceChar).reverse)

/-- Python `str.split(sep)` over character lists: first argument the
separator, second the remaining input, then the number of input characters
still to be consumed silently because they belong to an already-recognised
separator occurrence, and last the (reversed) current field.  One input
character is consumed per step, so the recursion is structural and the
function evaluates by kernel reduction. -/
def pySplitGo (sep : List Char) : List Char → Nat → List Char → List String
  | [], _, cur => [String.mk cur.reverse]
  | _ :: rest, skip + 1, cur => pySplitGo sep rest skip cur
  | c :: rest, 0, cur =>
    if sep.isPrefixOf (c :: rest) ∧ sep ≠ [] then
      String.mk cur.reverse :: pySplitGo sep rest (sep.length - 1) []
    else
      pySplitGo sep rest 0 (c :: cur)

/-- Python `s.split(sep)` for a non-empty separator string. -/
def pySplit (sep : String) (s : String) : List String :=
  pySplitGo sep.data s.data 0 []

/-- Python `set(...)` applied to a list of strings: keep the first occurrence
of each element.  (Python set iteration order is unspecified; no modelled
behaviour depends on the order, only on membership.)  First argument is the
set of elements already seen. -/
def pySetDedup : List String → List String → List String
  | _, [] => []
  | seen, x :: xs =>
    if x ∈ seen then pySetDedup seen xs
    else x :: pySetDedup (x :: seen) xs

/-- Python `set(...)` on a list of strings. -/
def pySet (l : List String) : List String := pySetDedup [] l

/-- `os.path.basename`: the part after the last `/`. -/
def basename (p : String) : String := (pySplit "/" p).getLastD p

/-- `os.path.join a b` for the cases used here: an absolute second component
replaces the first, otherwise the components are joined with `/`. -/
def os_path_join (a b : String) : String :=
  if pyStartsWith b "/" then b
  else if pyEndsWith a "/" || a = "" then a ++ b
  else a ++ "/" ++ b

/-! ## Configuration fragment used by the modelled code -/

/-- The two configuration entries `sync/downstream.py` reads:
`config["gecko"]["path"]["wpt"]` and `config["gecko"]["refs"]["central"]`. -/
structure Config where
  wptPath : String
  centralRef : String
deriving Repr, DecidableEq

/-! ## `get_files_changed` (downstream.py lines 67-70)

`WPT(project_path).files_changed()` is an external build-tool command; its
textual output is the parameter `output`.  The source returns
`set(output.split("\n"))`. -/

def get_files_changed (output : String) : List String :=
  pySet (pySplit "\n" output)

/-! ## `choose_bug_component` (downstream.py lines 73-103) -/

/-- One step of the counting loop: increment the count of `key` in the
association list `acc` (preserving first-seen order), or append it with
count 1. -/
def bump : List (String × Nat) → String → List (String × Nat)
  | [], key => [(key, 1)]
  | (k, n) :: rest, key =>
    if k = key then (k, n + 1) :: rest
    else (k, n) :: bump rest key

/-- The parsing loop of `choose_bug_component`: `current` is the Python
variable of the same name (`none` models Python `None`), the second argument
is the `components` counter so far, the third the remaining lines.  A line
starting with a space increments the count of `current`; the
`assert current is not None` in the source is modelled by returning `none`
(an `AssertionError`) when an indented line arrives before any header
line. -/
def countLines : Option String → List (String × Nat) → List String →
    Option (List (String × Nat))
  | _, acc, [] => some acc
  | current, acc, line :: rest =>
    if pyStartsWith line " " then
      match current with
      | none => none
      | some cur => countLines current (bump acc cur) rest
    else countLines (some (pyStrip line)) acc rest

/-- Parse the `mach file-info bugzilla-component` output into per-component
detail-line counts, as the loop in `choose_bug_component` does.
`none` models the `assert current is not None` failing. -/
def parseComponents (output : String) : Option (List (String × Nat)) :=
  countLines none [] (pySplit "\n" output)

/-- The sort key of `sorted(components.items(), key=lambda x:-x[1])`:
descending by count.  Python `sorted` is a stable total-order sort; it is
modelled by the stable `List.insertionSort` below. -/
def byCountDesc (a b : String × Nat) : Prop := b.2 ≤ a.2

instance : DecidableRel byCountDesc := fun a b => Nat.decLe b.2 a.2

instance : IsTotal (String × Nat) byCountDesc :=
  ⟨fun a b => Nat.le_total b.2 a.2⟩

instance : IsTrans (String × Nat) byCountDesc :=
  ⟨fun _ _ _ h1 h2 => Nat.le_trans h2 h1⟩

/-- The tail of `choose_bug_component` after the components are counted and
sorted (source lines 96-103): take `components[0][0]`; if it is `"UNKNOWN"`
and there is a second entry take `components[1][0]` instead; a final
`"UNKNOWN"` falls back to the default, otherwise the component is returned
split on `" :: "`.  (Indexing into the sorted list is total here via
`headD`; both uses are guarded by the callers so the fallback pair is never
selected.) -/
def reduceComponents (default : List String)
    (sorted : List (String × Nat)) : Option (List String) :=
  let component0 := (sorted.headD ("", 0)).1
  let component :=
    if component0 = "UNKNOWN" && decide (sorted.length > 1) then
      ((sorted.drop 1).headD ("", 0)).1
    else component0
  if component = "UNKNOWN" then some default
  else some (pySplit " :: " component)

/-- `choose_bug_component(config, git_gecko, files_changed, default)`.
The external command `Mach(git_gecko.working_dir).file_info(...)` is the
oracle `fileInfo` from the paths to its textual output.  The result is
`none` when the `assert` in the parsing loop fails, otherwise `some` of the
returned component (the Python return value `component.split(" :: ")`, or
`default` — both the tuple default and the split list are modelled as
`List String`).  Python `sorted(..., key=lambda x:-x[1])` is the stable
`List.insertionSort` by descending count. -/
def choose_bug_component (cfg : Config) (fileInfo : List String → String)
    (files_changed : List String) (default : List String) :
    Option (List String) :=
  if files_changed.isEmpty then some default
  else
    let paths := files_changed.map (fun item => os_path_join cfg.wptPath item)
    let output := fileInfo paths
    match parseComponents output with
    | none => none
    | some comps =>
      if comps.isEmpty then some default
      else reduceComponents default (List.insertionSort byCountDesc comps)

/-! ## Errors and inbound events -/

deriving instance DecidableEq for Except

/-- A `git.GitCommandError` raised by an external git command, carrying its
diagnostic text (the interpolation of the exception into a message). -/
structure GitError where
  msg : String
deriving Repr, DecidableEq

/-- An exception escaping a modelled function: an uncaught
`git.GitCommandError`, or an `AssertionError` from a failed `assert`. -/
inductive PyErr where
  | gitCommand (e : GitError)
  | assertionFailed
deriving Repr, DecidableEq

/-- A CI status notification (the `event` dict of `status_changed`). -/
structure StatusEvent where
  context : String
  state : String
  sha : String
deriving Repr, DecidableEq

/-- The `body["payload"]["pull_request"]` fields read by `new_wpt_pr`. -/
structure PrBody where
  number : Nat
  title : String
  body : String
deriving Repr, DecidableEq

/-! ## Bug tracker collaborator state

`bz` is the external tracker-issue client.  Its observable effects are the
issues created (`bz.new`), the comments posted (`bz.comment`) and the
routing fields set (`bz.set_component`); they are recorded in order. -/

structure Bug where
  id : Nat
  summary : String
  comment : String
  product : String
  component : String
deriving Repr, DecidableEq

structure BzState where
  nextId : Nat
  bugs : List Bug
  comments : List (Nat × String)
  componentSets : List (Nat × List String)
deriving Repr, DecidableEq

/-- `bz.new(summary=..., comment=..., product=..., component=...)`: creates a
tracker issue and returns its id. -/
def bz_new (bz : BzState) (summary comment product component : String) :
    Nat × BzState :=
  (bz.nextId,
   { bz with
     nextId := bz.nextId + 1,
     bugs := bz.bugs ++
       [{ id := bz.nextId, summary := summary, comment := comment,
          product := product, component := component }] })

/-- `bz.comment(bug, text)`. -/
def bz_comment (bz : BzState) (bug : Nat) (text : String) : BzState :=
  { bz with comments := bz.comments ++ [(bug, text)] }

/-- `bz.set_component(bug, *component)`. -/
def bz_set_component (bz : BzState) (bug : Nat) (component : List String) :
    BzState :=
  { bz with componentSets := bz.componentSets ++ [(bug, component)] }

/-! ## Sync State Store -/

/-- One `Sync` row: change-request id, direction, repository name, tracker
issue, and the two worktree paths it owns (unset until first materialised;
Python `None` is `none`). -/
structure SyncRec where
  pr_id : Nat
  direction : String
  repository : String
  bug : Nat
  wpt_worktree : Option String
  gecko_worktree : Option String
deriving Repr, DecidableEq

/-- The durable store: `PullRequest` rows and `Sync` rows. -/
structure StoreState where
  prs : List Nat
  syncs : List SyncRec
deriving Repr, DecidableEq

/-- Modelled from the spec: `session_scope` (sync.model.session_scope, whose
code is not under src/).  Per §4.5 all mutations inside one scope are one
transaction: on success they commit together, on a state-store failure the
store is left exactly as before the scope opened.  `fails` injects the
transaction outcome. -/
def session_scope (fails : Bool) (store : StoreState)
    (mutate : StoreState → StoreState) : StoreState :=
  if fails then store else mutate store

/-! ## `new_wpt_pr` (downstream.py lines 39-53) -/

/-- `new_wpt_pr(config, session, git_gecko, git_wpt, bz, body)`.  The source
first calls `bz.new(...)` to create the tracker issue, and only then opens
`session_scope(session)` to add the `PullRequest` row and the `Sync` row
(with `sync.bug = bug`).  `txnFails` is the outcome of that state-store
transaction. -/
def new_wpt_pr (bz : BzState) (store : StoreState) (txnFails : Bool)
    (body : PrBody) : BzState × StoreState :=
  let pr_id := body.number
  let created := bz_new bz
    ("[wpt-sync] PR " ++ toString pr_id ++ " - " ++ body.title)
    body.body "Testing" "web-platform-tests"
  let bug := created.1
  let bz1 := created.2
  let store1 := session_scope txnFails store (fun st =>
    { st with
      prs := st.prs ++ [pr_id],
      syncs := st.syncs ++
        [{ pr_id := pr_id, direction := "downstream",
           repository := "web-platform-tests", bug := bug,
           wpt_worktree := none, gecko_worktree := none }] })
  (bz1, store1)

/-! ## Git repository state and `is_worktree_tip` (lines 106-112)

A repository is modelled by its branch map `heads` (branch name to tip
revision).  The worktree of a sync is a branch whose name is the basename
of the worktree path. -/

def setHead : List (String × String) → String → String → List (String × String)
  | [], b, sha => [(b, sha)]
  | (k, v) :: rest, b, sha =>
    if k = b then (b, sha) :: rest else (k, v) :: setHead rest b sha

def lookupHead : List (String × String) → String → Option String
  | [], _ => none
  | (k, v) :: rest, b => if k = b then some v else lookupHead rest b

/-- `is_worktree_tip(repo, worktree_path, rev)`.  Python `None` (and the
empty column, both falsy) is `none`; otherwise the branch named by the
basename of the path must exist and its tip must equal `rev`. -/
def is_worktree_tip (heads : List (String × String))
    (worktree_path : Option String) (rev : String) : Bool :=
  match worktree_path with
  | none => false
  | some p =>
    match lookupHead heads (basename p) with
    | some sha => decide (sha = rev)
    | none => false

/-! ## External-collaborator oracles

Each fallible external command (git fetch/merge/show/am, mach) is an
`Except`-valued oracle; each pure query is a function of its inputs. -/

structure Env where
  /-- `git_wpt.git.fetch("origin", "master", no_tags=True)`; on success the
  resulting tip of `origin/master`. -/
  fetchWptMaster : Except GitError String
  /-- `wpt_work.git.fetch("origin", "pull/N/head:heads/pull_N")`; on success
  the revision of the change-request head. -/
  fetchPrHead : Nat → Except GitError String
  /-- `wpt_work.git.merge(...)`: from the current tip and the merged head,
  the new tip of the worktree branch (a merge conflict is an error). -/
  mergeTip : String → String → Except GitError String
  /-- Output of `WPT(wpt_work.working_dir).files_changed()`. -/
  filesChangedOutput : String
  /-- `git_gecko.git.fetch("mozilla")`. -/
  fetchMozilla : Except GitError Unit
  /-- The revision of `config["gecko"]["refs"]["central"]`. -/
  centralTip : String
  /-- `wpt_work.iter_commits("origin/master..", reverse=True)`: the commits
  of the change request not yet in the baseline, oldest first. -/
  iterCommits : List String
  /-- `wpt_work.git.show(c, pretty="email")`: render commit `c` as a patch. -/
  showPatch : String → Except GitError String
  /-- `gecko_work.git.am("--directory=" + wptPath, "-", ...)` fed the patch
  text: directory, commits already on the gecko branch, patch. -/
  amApply : String → List String → String → Except GitError Unit
  /-- `gecko_work.is_dirty` after `mach wpt-manifest-update`. -/
  manifestDirty : Bool
  /-- `Mach(gecko_work.working_dir).file_info("bugzilla-component", *paths)`. -/
  fileInfo : List String → String

/-! ## The mutable world threaded through the orchestrator -/

/-- Everything `status_changed`/`update_sync` can observe or mutate: the
`Sync` row, the branch maps of the two repositories, the commits currently
on the gecko worktree branch (since its baseline), the tracker-issue
client state, the log, and an instrumentation counter of `update_sync`
invocations (incremented on entry, never rolled back). -/
structure World where
  sync : SyncRec
  wptHeads : List (String × String)
  geckoHeads : List (String × String)
  geckoCommits : List String
  bz : BzState
  log : List String
  updateSyncCalls : Nat
deriving Repr, DecidableEq

/-- Modelled from the spec: `ensure_worktree` (sync.worktree.ensure_worktree,
whose code is not under src/).  Per §4.1 the call is idempotent: an existing
workspace for this sync is returned unchanged; otherwise an isolated
checkout deterministically named from the change-request id is created at
the baseline tip and its name recorded on the Sync record by the caller.
The worktree path is the deterministic name, which is also the branch
name. -/
def ensure_worktree (existing : Option String) (name : String)
    (baseTip : String) (heads : List (String × String)) :
    String × List (String × String) :=
  match existing with
  | some path => (path, heads)
  | none => (name, setHead heads name baseTip)

/-! ## `get_pr` (downstream.py lines 163-173) -/

/-- `get_pr(config, session, git_wpt, sync)`: fetch `origin/master`, ensure
the wpt worktree, hard-reset it to `origin/master`, fetch the pull head and
merge it.  A `git.GitCommandError` from any of these is returned as
`.error` (the caller `update_sync` catches it); the world mutations made
before the failing command persist. -/
def get_pr (env : Env) (w : World) : World × Except GitError String :=
  match env.fetchWptMaster with
  | .error e => (w, .error e)
  | .ok masterTip =>
    let ew := ensure_worktree w.sync.wpt_worktree
      ("PR_" ++ toString w.sync.pr_id) masterTip w.wptHeads
    let path := ew.1
    let w1 := { w with
      sync := { w.sync with wpt_worktree := some path },
      wptHeads := setHead ew.2 (basename path) masterTip }
    match env.fetchPrHead w1.sync.pr_id with
    | .error e => (w1, .error e)
    | .ok prHead =>
      match env.mergeTip masterTip prHead with
      | .error e => (w1, .error e)
      | .ok newTip =>
        ({ w1 with wptHeads := setHead w1.wptHeads (basename path) newTip },
         .ok path)

/-! ## `wpt_to_gecko_commits` (downstream.py lines 176-210) -/

def renderFailMsg (c msg : String) : String :=
  "Downstreaming from web-platform-tests failed because creating patch from "
    ++ c ++ " failed:\n" ++ msg

def applyFailMsg (c msg : String) : String :=
  "Downstreaming from web-platform-tests failed because applying patch from "
    ++ c ++ " failed:\n" ++ msg

def obtainFailMsg (prId : Nat) (msg : String) : String :=
  "Downstreaming from web-platform-tests failed because obtaining PR "
    ++ toString prId ++ " failed:\n" ++ msg

/-- The translator state: the commits currently applied on the gecko
worktree branch, plus two instrumentation traces recording for which
commits patch rendering (`git show`) and patch application (`git am`) were
attempted, in order. -/
structure TransState where
  geckoCommits : List String
  shown : List String
  amTried : List String
deriving Repr, DecidableEq

/-- `wpt_to_gecko_commits(config, wpt_work, gecko_work, sync, bz)`: walk the
commits `origin/master..` oldest-first; render each as an email patch plus a
trailing newline; skip it if the patch ends in three newlines (an empty
patch); otherwise apply it with `git am --directory=<wpt path>`.  On a
render or apply failure post one bugzilla comment naming the commit and the
diagnostic and return `False`; after the last commit return `True`.  The
result is the final state, the comment posted (at most one, immediately
before returning `False`), and the return value.  The two `assert`
statements at entry compare the active branch names with the recorded
worktree basenames; the worktree name doubles as the branch name in this
model, so they hold by construction and are not modelled. -/
def wpt_to_gecko_commits (cfg : Config) (env : Env) (bug : Nat)
    (s : TransState) : List String → TransState × Option (Nat × String) × Bool
  | [] => (s, none, true)
  | c :: cs =>
    match env.showPatch c with
    | .error e =>
      ({ s with shown := s.shown ++ [c] },
       some (bug, renderFailMsg c e.msg), false)
    | .ok out =>
      let patch := out ++ "\n"
      if pyEndsWith patch "\n\n\n" then
        wpt_to_gecko_commits cfg env bug { s with shown := s.shown ++ [c] } cs
      else
        match env.amApply cfg.wptPath s.geckoCommits patch with
        | .error e =>
          ({ s with shown := s.shown ++ [c], amTried := s.amTried ++ [c] },
           some (bug, applyFailMsg c e.msg), false)
        | .ok _ =>
          wpt_to_gecko_commits cfg env bug
            { s with shown := s.shown ++ [c], amTried := s.amTried ++ [c],
                     geckoCommits := s.geckoCommits ++ [patch] } cs

/-! ## `commit_manifest_update` (downstream.py lines 57-64) -/

/-- `commit_manifest_update(gecko_work)`: hard-reset to HEAD (discarding
uncommitted changes but no commits), run `mach wpt-manifest-update`, and if
the tree is dirty commit the regenerated manifest as one dedicated commit.
The branch content is the list of commits since its baseline. -/
def commit_manifest_update (env : Env) (branch : String)
    (commits : List String) : List String :=
  if env.manifestDirty then
    commits ++ ["[wpt-sync] downstream " ++ branch ++ ": update manifest"]
  else commits

/-! ## `update_sync` (downstream.py lines 129-160) -/

/-- `update_sync(config, session, git_gecko, git_wpt, sync, bz)`.  The whole
body runs in `session_scope(session)`: a normal return commits the Sync-row
mutations, an uncaught exception (`.error`) rolls them back (git and
bugzilla effects persist — they are external).  Return values: `.ok (some
false)` is `return False` (obtaining the PR failed, after a bugzilla
comment); `.ok none` is both the bare `return` taken when the translator
failed and the fall-through `return None` of the success path;
`.error` models an exception escaping `update_sync` (the unguarded
`git_gecko.git.fetch("mozilla")`, or the `assert` in
`choose_bug_component`). -/
def update_sync (cfg : Config) (env : Env) (w0 : World) :
    World × Except PyErr (Option Bool) :=
  let w := { w0 with updateSyncCalls := w0.updateSyncCalls + 1 }
  match get_pr env w with
  | (w1, .error e) =>
    ({ w1 with
       bz := bz_comment w1.bz w1.sync.bug (obtainFailMsg w1.sync.pr_id e.msg),
       log := w1.log ++ ["Failed to obtain web-platform-tests PR "
         ++ toString w1.sync.pr_id ++ ":\n" ++ e.msg] },
     .ok (some false))
  | (w1, .ok _) =>
    let files_changed := get_files_changed env.filesChangedOutput
    match env.fetchMozilla with
    | .error e => ({ w1 with sync := w0.sync }, .error (.gitCommand e))
    | .ok _ =>
      let ew := ensure_worktree w1.sync.gecko_worktree
        ("PR_" ++ toString w1.sync.pr_id) env.centralTip w1.geckoHeads
      let gPath := ew.1
      let w2 := { w1 with
        sync := { w1.sync with gecko_worktree := some gPath },
        geckoHeads := setHead ew.2 (basename gPath) env.centralTip,
        geckoCommits := [] }
      let tr := wpt_to_gecko_commits cfg env w2.sync.bug ⟨[], [], []⟩
        env.iterCommits
      let w3 := { w2 with
        geckoCommits := tr.1.geckoCommits,
        bz := match tr.2.1 with
              | some cm => bz_comment w2.bz cm.1 cm.2
              | none => w2.bz }
      if tr.2.2 = false then (w3, .ok none)
      else
        let w4 := { w3 with
          geckoCommits := commit_manifest_update env (basename gPath)
            w3.geckoCommits }
        match choose_bug_component cfg env.fileInfo files_changed
            ["Testing", "web-platform-tests"] with
        | none => ({ w4 with sync := w0.sync }, .error .assertionFailed)
        | some comp =>
          ({ w4 with bz := bz_set_component w4.bz w4.sync.bug comp }, .ok none)

/-! ## `status_changed` (downstream.py lines 115-126) -/

/-- `status_changed(config, session, bz, git_gecko, git_wpt, sync, event)`.
Only the single recognised CI context is acted on; a `pending` event
triggers `update_sync` unless the wpt worktree is already at the reported
revision; a `passed` event (and any other state) does nothing.  The return
value of `update_sync` is discarded; an exception it raises propagates. -/
def status_changed (cfg : Config) (env : Env) (w : World)
    (event : StatusEvent) : World × Except PyErr Unit :=
  if event.context ≠ "continuous-integration/travis-ci/pr" then
    ({ w with log := w.log ++ ["Ignoring status for context " ++ event.context] },
     .ok ())
  else if event.state = "pending" then
    if is_worktree_tip w.wptHeads w.sync.wpt_worktree event.sha then (w, .ok ())
    else
      let r := update_sync cfg env w
      match r.2 with
      | .ok _ => (r.1, .ok ())
      | .error e => (r.1, .error e)
  else if event.state = "passed" then (w, .ok ())
  else (w, .ok ())

/-! # Helper lemmas -/

/-- Splitting always yields at least one field. -/
lemma pySplitGo_ne_nil (sep : List Char) :
    ∀ (l : List Char) (skip : Nat) (cur : List Char),
      pySplitGo sep l skip cur ≠ [] := by
  intro l
  induction l with
  | nil => intro skip cur; simp [pySplitGo]
  | cons c rest ih =>
    intro skip cur
    cases skip with
    | zero =>
      rw [pySplitGo]
      split
      · simp
      · exact ih 0 (c :: cur)
    | succ n => rw [pySplitGo]; exact ih n cur

lemma pySplit_ne_nil (sep s : String) : pySplit sep s ≠ [] :=
  pySplitGo_ne_nil sep.data s.data 0 []

/-- Deduplicating a list headed by an unseen element keeps that head. -/
lemma pySet_cons_of_ne_nil (l : List String) (h : l ≠ []) : pySet l ≠ [] := by
  obtain ⟨x, xs, rfl⟩ := List.exists_cons_of_ne_nil h
  simp [pySet, pySetDedup]

/-- Once the parsing loop has seen a header line, the assertion can no
longer fail. -/
lemma countLines_some_ne_none :
    ∀ (lines : List String) (cur : String) (acc : List (String × Nat)),
      countLines (some cur) acc lines ≠ none := by
  intro lines
  induction lines with
  | nil => intro cur acc; simp [countLines]
  | cons line rest ih =>
    intro cur acc
    rw [countLines]
    split
    · exact ih cur (bump acc cur)
    · exact ih (pyStrip line) acc

lemma bump_cons_same (k : String) (n : Nat) (rest : List (String × Nat)) :
    bump ((k, n) :: rest) k = (k, n + 1) :: rest := by
  simp [bump]

lemma bump_cons_other (k key : String) (n : Nat) (rest : List (String × Nat))
    (h : k ≠ key) : bump ((k, n) :: rest) key = (k, n) :: bump rest key := by
  simp [bump, h]

/-- The keys occurring after a `bump` are the old keys plus the bumped one. -/
lemma mem_map_fst_bump (acc : List (String × Nat)) (key x : String) :
    x ∈ (bump acc key).map Prod.fst ↔ x ∈ acc.map Prod.fst ∨ x = key := by
  induction acc with
  | nil => simp [bump]
  | cons p rest ih =>
    obtain ⟨k, n⟩ := p
    by_cases hk : k = key
    · subst hk
      rw [bump_cons_same]
      simp only [List.map_cons, List.mem_cons]
      tauto
    · rw [bump_cons_other k key n rest hk]
      simp only [List.map_cons, List.mem_cons, ih]
      tauto

/-- `bump` preserves distinctness of the counted keys. -/
lemma bump_nodup (acc : List (String × Nat)) (key : String)
    (h : (acc.map Prod.fst).Nodup) : ((bump acc key).map Prod.fst).Nodup := by
  induction acc with
  | nil => simp [bump]
  | cons p rest ih =>
    obtain ⟨k, n⟩ := p
    simp only [List.map_cons, List.nodup_cons] at h
    by_cases hk : k = key
    · subst hk
      rw [bump_cons_same]
      simp only [List.map_cons, List.nodup_cons]
      exact h
    · rw [bump_cons_other k key n rest hk]
      simp only [List.map_cons, List.nodup_cons]
      refine ⟨fun hm => ?_, ih h.2⟩
      rcases (mem_map_fst_bump rest key k).mp hm with hm | hm
      · exact h.1 hm
      · exact hk hm

/-- The counts produced by the parsing loop have pairwise distinct keys. -/
lemma countLines_nodup :
    ∀ (lines : List String) (cur : Option String) (acc : List (String × Nat))
      (comps : List (String × Nat)), (acc.map Prod.fst).Nodup →
      countLines cur acc lines = some comps → (comps.map Prod.fst).Nodup := by
  intro lines
  induction lines with
  | nil =>
    intro cur acc comps hacc h
    simp only [countLines] at h
    cases h
    exact hacc
  | cons line rest ih =>
    intro cur acc comps hacc h
    cases cur with
    | none =>
      rw [countLines] at h
      split at h
      · exact absurd h (by simp)
      · exact ih (some (pyStrip line)) acc comps hacc h
    | some c =>
      rw [countLines] at h
      split at h
      · exact ih (some c) (bump acc c) comps (bump_nodup acc c hacc) h
      · exact ih (some (pyStrip line)) acc comps hacc h

/-- The components parsed from any classifier output have distinct keys. -/
lemma parseComponents_nodup (output : String) (comps : List (String × Nat))
    (h : parseComponents output = some comps) :
    (comps.map Prod.fst).Nodup :=
  countLines_nodup (pySplit "\n" output) none [] comps (by simp) h

lemma byCountDesc_iff (a b : String × Nat) : byCountDesc a b ↔ b.2 ≤ a.2 :=
  Iff.rfl

lemma insertionSort_ne_nil (comps : List (String × Nat)) (h : comps ≠ []) :
    List.insertionSort byCountDesc comps ≠ [] := by
  intro hnil
  have hlen := (List.perm_insertionSort byCountDesc comps).length_eq
  rw [hnil] at hlen
  exact h (List.eq_nil_of_length_eq_zero hlen.symm)

/-- The reduction step of `choose_bug_component` once the changed-path set
is known non-empty and the classifier output has been parsed. -/
lemma choose_bug_component_eq (cfg : Config)
    (fileInfo : List String → String) (files default : List String)
    (comps : List (String × Nat)) (hfe : files ≠ [])
    (hp : parseComponents
      (fileInfo (files.map (fun item => os_path_join cfg.wptPath item))) =
      some comps) :
    choose_bug_component cfg fileInfo files default =
      (if comps.isEmpty then some default
       else reduceComponents default (List.insertionSort byCountDesc comps)) := by
  have hne2 : files.isEmpty = false := by
    cases files with
    | nil => exact absurd rfl hfe
    | cons a l => rfl
  unfold choose_bug_component
  simp only [hne2, Bool.false_eq_true, if_false, hp]

/-- A single UNKNOWN candidate reduces to the default. -/
lemma reduceComponents_single_unknown (default : List String)
    (t : String × Nat) (h : t.1 = "UNKNOWN") :
    reduceComponents default [t] = some default := by
  simp [reduceComponents, h]

/-- A non-UNKNOWN top candidate is returned. -/
lemma reduceComponents_head (default : List String) (t : String × Nat)
    (ts : List (String × Nat)) (h : t.1 ≠ "UNKNOWN") :
    reduceComponents default (t :: ts) = some (pySplit " :: " t.1) := by
  simp [reduceComponents, h]

/-- An UNKNOWN top candidate is demoted in favour of the second entry. -/
lemma reduceComponents_second (default : List String) (t u : String × Nat)
    (us : List (String × Nat)) (ht : t.1 = "UNKNOWN")
    (hu : u.1 ≠ "UNKNOWN") :
    reduceComponents default (t :: u :: us) = some (pySplit " :: " u.1) := by
  simp [reduceComponents, ht, hu]

/-- The patch that `wpt_to_gecko_commits` would apply for a commit: `none`
when rendering fails or the rendered patch is empty, otherwise the patch
text (the rendered output plus the trailing newline the source appends). -/
def appliedPatch (env : Env) (c : String) : Option String :=
  match env.showPatch c with
  | .error _ => none
  | .ok out =>
    if pyEndsWith (out ++ "\n") "\n\n\n" then none else some (out ++ "\n")

/-- Full case analysis of the translation loop.  Either every commit
succeeds (or is skipped as empty): the return value is `True`, no comment is
posted, rendering was attempted for every commit in order, and exactly the
non-empty renderable patches were applied in order; or some commit fails:
the return value is `False`, rendering was attempted exactly for the
commits up to and including the failing one (in order, so nothing after it
was attempted), one comment naming the failing commit and the diagnostic
was posted, and only the earlier non-empty patches were applied. -/
lemma wptToGecko_cases (cfg : Config) (env : Env) (bug : Nat) :
    ∀ (cs : List String) (s : TransState)
      (r : TransState × Option (Nat × String) × Bool),
      r = wpt_to_gecko_commits cfg env bug s cs →
      (r.2.2 = true ∧ r.2.1 = none ∧
       r.1.shown = s.shown ++ cs ∧
       r.1.amTried = s.amTried ++
         cs.filter (fun x => (appliedPatch env x).isSome) ∧
       r.1.geckoCommits = s.geckoCommits ++
         cs.filterMap (appliedPatch env)) ∨
      (r.2.2 = false ∧ ∃ pre c post,
        cs = pre ++ c :: post ∧
        r.1.shown = s.shown ++ pre ++ [c] ∧
        r.1.geckoCommits = s.geckoCommits ++
          pre.filterMap (appliedPatch env) ∧
        ∃ e : GitError,
          (env.showPatch c = .error e ∧
           r.2.1 = some (bug, renderFailMsg c e.msg) ∧
           r.1.amTried = s.amTried ++
             pre.filter (fun x => (appliedPatch env x).isSome)) ∨
          (∃ out, env.showPatch c = .ok out ∧
           pyEndsWith (out ++ "\n") "\n\n\n" = false ∧
           env.amApply cfg.wptPath
             (s.geckoCommits ++ pre.filterMap (appliedPatch env))
             (out ++ "\n") = .error e ∧
           r.2.1 = some (bug, applyFailMsg c e.msg) ∧
           r.1.amTried = s.amTried ++
             pre.filter (fun x => (appliedPatch env x).isSome) ++ [c])) := by
  intro cs
  induction cs with
  | nil =>
    intro s r hr
    subst hr
    left
    exact ⟨rfl, rfl, by simp [wpt_to_gecko_commits],
      by simp [wpt_to_gecko_commits], by simp [wpt_to_gecko_commits]⟩
  | cons c cs ih =>
    intro s r hr
    cases hshow : env.showPatch c with
    | error e =>
      simp only [wpt_to_gecko_commits, hshow] at hr
      subst hr
      right
      refine ⟨rfl, [], c, cs, by simp, by simp, by simp, e,
        Or.inl ⟨hshow, rfl, by simp⟩⟩
    | ok out =>
      have hap : appliedPatch env c =
          if pyEndsWith (out ++ "\n") "\n\n\n" then none
          else some (out ++ "\n") := by
        simp [appliedPatch, hshow]
      simp only [wpt_to_gecko_commits, hshow] at hr
      by_cases hend : pyEndsWith (out ++ "\n") "\n\n\n" = true
      · -- empty patch: the commit is skipped
        rw [if_pos hend] at hr
        rw [hend, if_pos rfl] at hap
        rcases ih _ r hr with
          ⟨h1, h2, h3, h4, h5⟩ | ⟨h1, pre, c1, post, hcs, h3, h5, e, hsub⟩
        · left
          refine ⟨h1, h2, ?_, ?_, ?_⟩
          · rw [h3]; simp
          · rw [h4]; simp [List.filter_cons, hap]
          · rw [h5]; simp [List.filterMap_cons, hap]
        · right
          refine ⟨h1, c :: pre, c1, post, by rw [hcs]; rfl, ?_, ?_, e, ?_⟩
          · rw [h3]; simp
          · rw [h5]; simp [List.filterMap_cons, hap]
          · rcases hsub with ⟨ha, hb, hc⟩ | ⟨o, ha, hb, hc, hd, he⟩
            · exact Or.inl ⟨ha, hb, by rw [hc]; simp [List.filter_cons, hap]⟩
            · refine Or.inr ⟨o, ha, hb, ?_, hd, ?_⟩
              · rw [← hc]; simp [List.filterMap_cons, hap]
              · rw [he]; simp [List.filter_cons, hap]
      · -- non-empty patch: application is attempted
        rw [if_neg hend] at hr
        rw [if_neg hend] at hap
        rw [Bool.not_eq_true] at hend
        cases ham : env.amApply cfg.wptPath s.geckoCommits (out ++ "\n") with
        | error e =>
          rw [ham] at hr
          subst hr
          right
          refine ⟨rfl, [], c, cs, by simp, by simp, by simp, e,
            Or.inr ⟨out, hshow, hend, by simpa using ham, rfl, by simp⟩⟩
        | ok u =>
          rw [ham] at hr
          rcases ih _ r hr with
            ⟨h1, h2, h3, h4, h5⟩ | ⟨h1, pre, c1, post, hcs, h3, h5, e, hsub⟩
          · left
            refine ⟨h1, h2, ?_, ?_, ?_⟩
            · rw [h3]; simp
            · rw [h4]; simp [List.filter_cons, hap]
            · rw [h5]; simp [List.filterMap_cons, hap]
          · right
            refine ⟨h1, c :: pre, c1, post, by rw [hcs]; rfl, ?_, ?_, e, ?_⟩
            · rw [h3]; simp
            · rw [h5]; simp [List.filterMap_cons, hap]
            · rcases hsub with ⟨ha, hb, hc⟩ | ⟨o, ha, hb, hc, hd, he⟩
              · exact Or.inl ⟨ha, hb, by rw [hc]; simp [List.filter_cons, hap]⟩
              · refine Or.inr ⟨o, ha, hb, ?_, hd, ?_⟩
                · rw [← hc]; simp [List.filterMap_cons, hap]
                · rw [he]; simp [List.filter_cons, hap]

lemma lookupHead_setHead_self (hs : List (String × String)) (b v : String) :
    lookupHead (setHead hs b v) b = some v := by
  induction hs with
  | nil => simp [setHead, lookupHead]
  | cons q rest ih =>
    obtain ⟨k, x⟩ := q
    by_cases hk : k = b
    · subst hk; simp [setHead, lookupHead]
    · simp [setHead, lookupHead, hk, ih]

lemma setHead_setHead (hs : List (String × String)) (b v1 v2 : String) :
    setHead (setHead hs b v1) b v2 = setHead hs b v2 := by
  induction hs with
  | nil => simp [setHead]
  | cons q rest ih =>
    obtain ⟨k, x⟩ := q
    by_cases hk : k = b
    · subst hk; simp [setHead]
    · simp [setHead, hk, ih]

/-- `get_pr` on a fully successful environment: the worktree path is
whatever the workspace manager returns, the Sync row records it, and the
branch named by its basename ends at the merge result. -/
lemma get_pr_ok (env : Env) (w : World) (m p t : String)
    (hm : env.fetchWptMaster = .ok m)
    (hp : env.fetchPrHead w.sync.pr_id = .ok p)
    (hmerge : env.mergeTip m p = .ok t) :
    get_pr env w =
      ({ w with
         sync := { w.sync with
           wpt_worktree := some (ensure_worktree w.sync.wpt_worktree
             ("PR_" ++ toString w.sync.pr_id) m w.wptHeads).1 },
         wptHeads := setHead
           (ensure_worktree w.sync.wpt_worktree
             ("PR_" ++ toString w.sync.pr_id) m w.wptHeads).2
           (basename (ensure_worktree w.sync.wpt_worktree
             ("PR_" ++ toString w.sync.pr_id) m w.wptHeads).1) t },
       .ok (ensure_worktree w.sync.wpt_worktree
         ("PR_" ++ toString w.sync.pr_id) m w.wptHeads).1) := by
  unfold get_pr
  rw [hm]
  dsimp only
  rw [hp]
  dsimp only
  rw [hmerge]
  dsimp only
  rw [setHead_setHead]

/-- `get_pr` never touches the invocation counter, the gecko state, the
tracker-issue state or the log. -/
lemma get_pr_frame (env : Env) (w : World) :
    (get_pr env w).1.updateSyncCalls = w.updateSyncCalls ∧
    (get_pr env w).1.sync.pr_id = w.sync.pr_id ∧
    (get_pr env w).1.sync.bug = w.sync.bug ∧
    (get_pr env w).1.sync.gecko_worktree = w.sync.gecko_worktree ∧
    (get_pr env w).1.geckoHeads = w.geckoHeads ∧
    (get_pr env w).1.geckoCommits = w.geckoCommits ∧
    (get_pr env w).1.bz = w.bz ∧
    (get_pr env w).1.log = w.log := by
  unfold get_pr
  cases env.fetchWptMaster with
  | error e => simp
  | ok m =>
    dsimp only
    cases env.fetchPrHead w.sync.pr_id with
    | error e => simp
    | ok p =>
      dsimp only
      cases env.mergeTip m p with
      | error e => simp
      | ok t => simp

/-- `update_sync` always counts exactly one invocation, whatever the
environment does (exceptions included). -/
lemma update_sync_calls (cfg : Config) (env : Env) (w : World) :
    (update_sync cfg env w).1.updateSyncCalls = w.updateSyncCalls + 1 := by
  unfold update_sync
  dsimp only
  have hg := (get_pr_frame env { w with updateSyncCalls := w.updateSyncCalls + 1 }).1
  rcases hpair : get_pr env { w with updateSyncCalls := w.updateSyncCalls + 1 }
    with ⟨w1, r⟩
  rw [hpair] at hg
  cases r with
  | error e => exact hg
  | ok path =>
    dsimp only
    cases env.fetchMozilla with
    | error e => exact hg
    | ok u =>
      dsimp only
      split
      · exact hg
      · split
        · exact hg
        · exact hg

/-- `choose_bug_component` can only raise the assertion, never return
nothing else: with a non-empty path set and a parseable classifier output
it always produces a component or the default. -/
lemma choose_bug_component_ne_none (cfg : Config)
    (fileInfo : List String → String) (files default : List String)
    (hfe : files ≠ [])
    (hcl : parseComponents
      (fileInfo (files.map (fun item => os_path_join cfg.wptPath item))) ≠
      none) :
    choose_bug_component cfg fileInfo files default ≠ none := by
  have hne2 : files.isEmpty = false := by
    cases files with
    | nil => exact absurd rfl hfe
    | cons a l => rfl
  unfold choose_bug_component
  rw [if_neg (by rw [hne2]; exact Bool.false_ne_true)]
  obtain ⟨comps, hpc⟩ := Option.ne_none_iff_exists'.mp hcl
  simp only [hpc]
  split
  · simp
  · unfold reduceComponents
    dsimp only
    split <;> (split <;> simp)

/-- `update_sync` when fetching the upstream change request fails: one
tracker-issue comment and the `False` return. -/
lemma update_sync_fetch_failure (cfg : Config) (env : Env) (w : World)
    (e : GitError) (hm : env.fetchWptMaster = .error e) :
    update_sync cfg env w =
      ({ w with
         updateSyncCalls := w.updateSyncCalls + 1,
         bz := bz_comment w.bz w.sync.bug (obtainFailMsg w.sync.pr_id e.msg),
         log := w.log ++ ["Failed to obtain web-platform-tests PR "
           ++ toString w.sync.pr_id ++ ":\n" ++ e.msg] },
       .ok (some false)) := by
  unfold update_sync
  dsimp only
  have hg : get_pr env { w with updateSyncCalls := w.updateSyncCalls + 1 } =
      ({ w with updateSyncCalls := w.updateSyncCalls + 1 }, .error e) := by
    unfold get_pr
    rw [hm]
  rw [hg]

/-- The observable effects of `update_sync` when fetching, merging and the
second fetch all succeed: the Sync row records the wpt worktree, the wpt
worktree branch ends at the merge result, the call returns `None`
(whether or not translation succeeded), and the comments grow by exactly
the translator's failure comment (if any). -/
lemma update_sync_observables (cfg : Config) (env : Env) (w : World)
    (m p t : String)
    (hm : env.fetchWptMaster = .ok m)
    (hp : env.fetchPrHead w.sync.pr_id = .ok p)
    (hmerge : env.mergeTip m p = .ok t)
    (hmoz : env.fetchMozilla = .ok ())
    (hcls : ∀ paths, parseComponents (env.fileInfo paths) ≠ none) :
    ∃ path,
      (update_sync cfg env w).1.sync.wpt_worktree = some path ∧
      lookupHead (update_sync cfg env w).1.wptHeads (basename path) =
        some t ∧
      (update_sync cfg env w).2 = .ok none ∧
      (update_sync cfg env w).1.bz.comments = w.bz.comments ++
        (wpt_to_gecko_commits cfg env w.sync.bug ⟨[], [], []⟩
          env.iterCommits).2.1.toList := by
  refine ⟨(ensure_worktree w.sync.wpt_worktree
    ("PR_" ++ toString w.sync.pr_id) m w.wptHeads).1, ?_⟩
  have hgp := get_pr_ok env { w with updateSyncCalls := w.updateSyncCalls + 1 }
    m p t hm hp hmerge
  dsimp only at hgp
  unfold update_sync
  dsimp only
  rw [hgp]
  dsimp only
  rw [hmoz]
  dsimp only
  rcases htr : (wpt_to_gecko_commits cfg env w.sync.bug ⟨[], [], []⟩
      env.iterCommits).2.2 with _ | _
  · -- translation failed: the bare return
    rw [if_pos rfl]
    dsimp only
    refine ⟨rfl, lookupHead_setHead_self _ _ _, rfl, ?_⟩
    cases (wpt_to_gecko_commits cfg env w.sync.bug ⟨[], [], []⟩
        env.iterCommits).2.1 with
    | none => simp [bz_comment]
    | some cm => simp [bz_comment]
  · -- translation succeeded: manifest commit, classification, routing
    rw [if_neg (by simp)]
    have hfe : get_files_changed env.filesChangedOutput ≠ [] :=
      pySet_cons_of_ne_nil _ (pySplit_ne_nil "\n" env.filesChangedOutput)
    obtain ⟨comp, hcomp⟩ := Option.ne_none_iff_exists'.mp
      (choose_bug_component_ne_none cfg env.fileInfo
        (get_files_changed env.filesChangedOutput)
        ["Testing", "web-platform-tests"] hfe (hcls _))
    rw [hcomp]
    dsimp only
    refine ⟨rfl, lookupHead_setHead_self _ _ _, rfl, ?_⟩
    cases (wpt_to_gecko_commits cfg env w.sync.bug ⟨[], [], []⟩
        env.iterCommits).2.1 with
    | none => simp [bz_comment, bz_set_component]
    | some cm => simp [bz_comment, bz_set_component]

/-! # Concrete fixtures shared by witnesses and counterexamples -/

def cfgEx : Config :=
  { wptPath := "testing/web-platform/tests", centralRef := "central" }

/-- A fully successful collaborator environment. -/
def envBase : Env :=
  { fetchWptMaster := .ok "mastersha"
  , fetchPrHead := fun _ => .ok "headsha"
  , mergeTip := fun _ _ => .ok "headsha"
  , filesChangedOutput := "a.html\nb.html"
  , fetchMozilla := .ok ()
  , centralTip := "centralsha"
  , iterCommits := ["c1", "c2"]
  , showPatch := fun c => .ok ("patch of " ++ c)
  , amApply := fun _ _ _ => .ok ()
  , manifestDirty := true
  , fileInfo := fun _ => "Core :: DOM\n x\n y" }

/-- Applying the second patch fails (the gecko branch already has one). -/
def envApplyFail : Env :=
  { envBase with
    amApply := fun _ st _ =>
      if st.length = 1 then .error { msg := "conflict" } else .ok () }

/-- Fetching the upstream baseline fails. -/
def envFetchFail : Env :=
  { envBase with fetchWptMaster := .error { msg := "net down" } }

/-- One commit whose rendered patch is empty. -/
def envSkip : Env :=
  { envBase with iterCommits := ["c1"], showPatch := fun _ => .ok "meta\n\n" }

def syncEx : SyncRec :=
  { pr_id := 9, direction := "downstream",
    repository := "web-platform-tests", bug := 1,
    wpt_worktree := none, gecko_worktree := none }

def bzEx : BzState :=
  { nextId := 2, bugs := [], comments := [], componentSets := [] }

def wEx : World :=
  { sync := syncEx, wptHeads := [], geckoHeads := [], geckoCommits := []
  , bz := bzEx, log := [], updateSyncCalls := 0 }

def evEx : StatusEvent :=
  { context := "continuous-integration/travis-ci/pr", state := "pending",
    sha := "headsha" }

def bz0 : BzState :=
  { nextId := 1, bugs := [], comments := [], componentSets := [] }

def store0 : StoreState := { prs := [], syncs := [] }

def body9 : PrBody :=
  { number := 9, title := "Test PR", body := "blah blah body" }

/-! # Claim theorems -/

/-- C1 counterexample: when the intake state-store transaction fails,
`new_wpt_pr` has nevertheless already created the tracker issue, because
`bz.new(...)` runs before `session_scope(session)` opens: afterwards the
store holds no Sync record but the issue exists — an orphaned tracker
issue, contradicting the claimed co-transactionality. -/
theorem new_wpt_pr_orphan_counterexample :
    (new_wpt_pr bz0 store0 true body9).2.syncs = [] ∧
    (new_wpt_pr bz0 store0 true body9).1.bugs ≠ [] ∧
    ∃ b ∈ (new_wpt_pr bz0 store0 true body9).1.bugs,
      ∀ s ∈ (new_wpt_pr bz0 store0 true body9).2.syncs, s.bug ≠ b.id := by
  decide

/-- C1 amended: the tracker issue is created before the intake transaction
opens; if the state-store transaction fails, the `PullRequest` and `Sync`
rows are rolled back (the store is unchanged) but the tracker issue has
been created regardless, so an orphaned tracker issue without a backing
Sync record remains. -/
theorem new_wpt_pr_txn_failure_orphan (bz : BzState) (store : StoreState)
    (body : PrBody) :
    (new_wpt_pr bz store true body).2 = store ∧
    (new_wpt_pr bz store true body).1.bugs = bz.bugs ++
      [{ id := bz.nextId,
         summary := "[wpt-sync] PR " ++ toString body.number ++ " - "
           ++ body.title,
         comment := body.body, product := "Testing",
         component := "web-platform-tests" }] :=
  ⟨rfl, rfl⟩

/-- C2: the translator renders and applies the pending commits oldest-first
in exactly the given order; when every commit succeeds or is skipped it
returns `True` with no comment, and the applied patches are exactly the
non-empty rendered patches in order; when rendering or applying some commit
fails, rendering was attempted exactly for the commits up to and including
the failing one (so no later commit is ever attempted), one tracker-issue
comment naming the failing commit and the tool diagnostic is posted, and
the function returns `False`. -/
theorem wpt_to_gecko_commits_order_abort (cfg : Config) (env : Env)
    (bug : Nat) (s : TransState) (cs : List String) :
    ((wpt_to_gecko_commits cfg env bug s cs).2.2 = true ∧
     (wpt_to_gecko_commits cfg env bug s cs).2.1 = none ∧
     (wpt_to_gecko_commits cfg env bug s cs).1.shown = s.shown ++ cs ∧
     (wpt_to_gecko_commits cfg env bug s cs).1.amTried = s.amTried ++
       cs.filter (fun x => (appliedPatch env x).isSome) ∧
     (wpt_to_gecko_commits cfg env bug s cs).1.geckoCommits =
       s.geckoCommits ++ cs.filterMap (appliedPatch env)) ∨
    ((wpt_to_gecko_commits cfg env bug s cs).2.2 = false ∧ ∃ pre c post,
      cs = pre ++ c :: post ∧
      (wpt_to_gecko_commits cfg env bug s cs).1.shown =
        s.shown ++ pre ++ [c] ∧
      (wpt_to_gecko_commits cfg env bug s cs).1.geckoCommits =
        s.geckoCommits ++ pre.filterMap (appliedPatch env) ∧
      ∃ e : GitError,
        (env.showPatch c = .error e ∧
         (wpt_to_gecko_commits cfg env bug s cs).2.1 =
           some (bug, renderFailMsg c e.msg) ∧
         (wpt_to_gecko_commits cfg env bug s cs).1.amTried = s.amTried ++
           pre.filter (fun x => (appliedPatch env x).isSome)) ∨
        (∃ out, env.showPatch c = .ok out ∧
         pyEndsWith (out ++ "\n") "\n\n\n" = false ∧
         env.amApply cfg.wptPath
           (s.geckoCommits ++ pre.filterMap (appliedPatch env))
           (out ++ "\n") = .error e ∧
         (wpt_to_gecko_commits cfg env bug s cs).2.1 =
           some (bug, applyFailMsg c e.msg) ∧
         (wpt_to_gecko_commits cfg env bug s cs).1.amTried = s.amTried ++
           pre.filter (fun x => (appliedPatch env x).isSome) ++ [c])) :=
  wptToGecko_cases cfg env bug cs s _ rfl

/-- C7: a commit whose rendered patch is semantically empty (the rendered
text plus trailing newline ends in three newlines) is skipped: no
application is attempted, the target workspace state is untouched, no
comment is posted at this step, and translation continues with the
remaining commits exactly as if the skipped commit were absent (only the
render-attempt trace records it). -/
theorem wpt_to_gecko_commits_empty_patch_skip (cfg : Config) (env : Env)
    (bug : Nat) (s : TransState) (c : String) (cs : List String)
    (out : String) (hshow : env.showPatch c = .ok out)
    (hend : pyEndsWith (out ++ "\n") "\n\n\n" = true) :
    wpt_to_gecko_commits cfg env bug s (c :: cs) =
      wpt_to_gecko_commits cfg env bug
        { s with shown := s.shown ++ [c] } cs := by
  simp only [wpt_to_gecko_commits, hshow]
  rw [if_pos hend]

/-- Witness for C7: a commit rendering to a metadata-only patch is skipped
and the translation of the remaining (empty) list succeeds with no applied
patches. -/
theorem wpt_to_gecko_commits_empty_patch_skip_witness :
    wpt_to_gecko_commits cfgEx envSkip 1 ⟨[], [], []⟩ ["c1"] =
      wpt_to_gecko_commits cfgEx envSkip 1 ⟨[], ["c1"], []⟩ [] :=
  wpt_to_gecko_commits_empty_patch_skip cfgEx envSkip 1 ⟨[], [], []⟩
    "c1" [] "meta\n\n" (by decide) (by decide)

/-- C3: a recognised `pending` event for a sync whose wpt worktree is not
at the reported revision invokes `update_sync` exactly once; afterwards the
worktree branch is at the merge result, which (with no intervening upstream
change, i.e. merging the change-request head fast-forwards to the reported
revision) equals the event revision, so an immediately repeated identical
event is a no-op: the world is untouched and no second invocation
happens. -/
theorem status_changed_pending_idempotent (cfg : Config) (env : Env)
    (w : World) (event : StatusEvent) (m p : String)
    (hctx : event.context = "continuous-integration/travis-ci/pr")
    (hst : event.state = "pending")
    (htip : is_worktree_tip w.wptHeads w.sync.wpt_worktree event.sha = false)
    (hm : env.fetchWptMaster = .ok m)
    (hp : env.fetchPrHead w.sync.pr_id = .ok p)
    (hmerge : env.mergeTip m p = .ok event.sha)
    (hmoz : env.fetchMozilla = .ok ())
    (hcls : ∀ paths, parseComponents (env.fileInfo paths) ≠ none) :
    (status_changed cfg env w event).2 = .ok () ∧
    (status_changed cfg env w event).1.updateSyncCalls =
      w.updateSyncCalls + 1 ∧
    status_changed cfg env (status_changed cfg env w event).1 event =
      ((status_changed cfg env w event).1, .ok ()) := by
  obtain ⟨path, hwt, hlk, hret, -⟩ :=
    update_sync_observables cfg env w m p event.sha hm hp hmerge hmoz hcls
  have hfirst : status_changed cfg env w event =
      ((update_sync cfg env w).1, .ok ()) := by
    unfold status_changed
    rw [if_neg (fun hne => hne hctx), if_pos hst,
      if_neg (by rw [htip]; exact Bool.false_ne_true)]
    dsimp only
    rw [hret]
  refine ⟨by rw [hfirst], ?_, ?_⟩
  · rw [hfirst]
    exact update_sync_calls cfg env w
  · rw [hfirst]
    unfold status_changed
    rw [if_neg (fun hne => hne hctx), if_pos hst]
    have htip2 : is_worktree_tip (update_sync cfg env w).1.wptHeads
        (update_sync cfg env w).1.sync.wpt_worktree event.sha = true := by
      rw [hwt]
      unfold is_worktree_tip
      dsimp only
      rw [hlk]
      simp
    rw [if_pos htip2]

/-- Witness for C3 on the concrete fixture: a fresh sync (no worktree yet)
and a pending Travis event; the first call performs exactly one
`update_sync` invocation and the immediately repeated call is a no-op. -/
theorem status_changed_pending_idempotent_witness :
    (status_changed cfgEx envBase wEx evEx).2 = .ok () ∧
    (status_changed cfgEx envBase wEx evEx).1.updateSyncCalls =
      wEx.updateSyncCalls + 1 ∧
    status_changed cfgEx envBase (status_changed cfgEx envBase wEx evEx).1
        evEx =
      ((status_changed cfgEx envBase wEx evEx).1, .ok ()) :=
  status_changed_pending_idempotent cfgEx envBase wEx evEx
    "mastersha" "headsha" rfl rfl (by decide) rfl rfl rfl rfl
    (fun _ => (by decide : parseComponents "Core :: DOM\n x\n y" ≠ none))

/-- The invocation count of a recognised pending event: one `update_sync`
call when the worktree is stale or missing, none when it is already at the
reported revision. -/
lemma status_changed_pending_calls (cfg : Config) (env : Env) (w : World)
    (event : StatusEvent)
    (hctx : event.context = "continuous-integration/travis-ci/pr")
    (hst : event.state = "pending") :
    (status_changed cfg env w event).1.updateSyncCalls =
      w.updateSyncCalls +
        (if is_worktree_tip w.wptHeads w.sync.wpt_worktree event.sha
         then 0 else 1) := by
  unfold status_changed
  rw [if_neg (fun hne => hne hctx), if_pos hst]
  cases htip : is_worktree_tip w.wptHeads w.sync.wpt_worktree event.sha with
  | true =>
    rw [if_pos rfl]
    simp
  | false =>
    rw [if_neg Bool.false_ne_true]
    dsimp only
    rcases h2 : (update_sync cfg env w).2 with e | v
    · dsimp only
      rw [if_neg Bool.false_ne_true]
      exact update_sync_calls cfg env w
    · dsimp only
      rw [if_neg Bool.false_ne_true]
      exact update_sync_calls cfg env w

/-- C5: events with an unrecognised context are logged and ignored without
invoking the orchestrator; a recognised `pending` event invokes
`update_sync` exactly when the wpt worktree is not already at the reported
revision (a missing worktree counts as stale); a recognised `passed` event
is a no-op. -/
theorem status_changed_dispatch (cfg : Config) (env : Env) (w : World)
    (event : StatusEvent) :
    (event.context ≠ "continuous-integration/travis-ci/pr" →
      status_changed cfg env w event =
        ({ w with log := w.log ++
            ["Ignoring status for context " ++ event.context] }, .ok ())) ∧
    (event.context = "continuous-integration/travis-ci/pr" →
     event.state = "pending" →
      (status_changed cfg env w event).1.updateSyncCalls =
        w.updateSyncCalls +
          (if is_worktree_tip w.wptHeads w.sync.wpt_worktree event.sha
           then 0 else 1) ∧
      (w.sync.wpt_worktree = none →
        (status_changed cfg env w event).1.updateSyncCalls =
          w.updateSyncCalls + 1)) ∧
    (event.context = "continuous-integration/travis-ci/pr" →
     event.state = "passed" →
      status_changed cfg env w event = (w, .ok ())) := by
  refine ⟨fun hne => ?_, fun hctx hst => ?_, fun hctx hst => ?_⟩
  · unfold status_changed
    rw [if_pos hne]
  · refine ⟨status_changed_pending_calls cfg env w event hctx hst, ?_⟩
    intro hnone
    rw [status_changed_pending_calls cfg env w event hctx hst, hnone]
    rfl
  · unfold status_changed
    rw [if_neg (fun hne => hne hctx),
      if_neg (fun hpend => by rw [hst] at hpend; exact absurd hpend (by decide)),
      if_pos hst]

/-- Witness for C5: an event with an unrecognised context is logged and
ignored. -/
theorem status_changed_dispatch_witness :
    status_changed cfgEx envBase wEx
      { context := "ci/other", state := "pending", sha := "s" } =
      ({ wEx with log := wEx.log ++
          ["Ignoring status for context ci/other"] }, .ok ()) :=
  (status_changed_dispatch cfgEx envBase wEx
    { context := "ci/other", state := "pending", sha := "s" }).1 (by decide)

/-- C6 counterexample: on the concrete fixture, a patch-apply failure makes
`update_sync` post the failure comment but return `None` — exactly the
value the fully successful run returns — so for the patch-apply (and
patch-render) error kinds the claimed caller-distinguishable failure value
does not exist; only the fetch-failure branch returns the distinct
`False`. -/
theorem update_sync_return_indistinct :
    (update_sync cfgEx envApplyFail wEx).2 = .ok none ∧
    (update_sync cfgEx envBase wEx).2 = .ok none ∧
    (update_sync cfgEx envApplyFail wEx).1.bz.comments =
      [(1, applyFailMsg "c2" "conflict")] ∧
    (update_sync cfgEx envBase wEx).1.bz.comments = [] := by
  decide

/-- C6 amended: every fatal error kind posts a human-readable tracker-issue
comment, but only the fetch-failure branch returns a value (`False`)
distinguishable from success: patch-render and patch-apply failures make
`update_sync` return `None`, the same value it returns on success. -/
theorem update_sync_error_reporting (cfg : Config) (env : Env) (w : World)
    (m p t : String) (e : GitError) :
    (env.fetchWptMaster = .error e →
      (update_sync cfg env w).2 = .ok (some false) ∧
      (update_sync cfg env w).1.bz.comments = w.bz.comments ++
        [(w.sync.bug, obtainFailMsg w.sync.pr_id e.msg)]) ∧
    (env.fetchWptMaster = .ok m → env.fetchPrHead w.sync.pr_id = .ok p →
     env.mergeTip m p = .ok t → env.fetchMozilla = .ok () →
     (∀ paths, parseComponents (env.fileInfo paths) ≠ none) →
     ((wpt_to_gecko_commits cfg env w.sync.bug ⟨[], [], []⟩
         env.iterCommits).2.2 = false →
       (update_sync cfg env w).2 = .ok none ∧
       ∃ pre c post, ∃ ee : GitError,
         env.iterCommits = pre ++ c :: post ∧
         ((update_sync cfg env w).1.bz.comments = w.bz.comments ++
           [(w.sync.bug, renderFailMsg c ee.msg)] ∨
          (update_sync cfg env w).1.bz.comments = w.bz.comments ++
           [(w.sync.bug, applyFailMsg c ee.msg)])) ∧
     ((wpt_to_gecko_commits cfg env w.sync.bug ⟨[], [], []⟩
         env.iterCommits).2.2 = true →
       (update_sync cfg env w).2 = .ok none ∧
       (update_sync cfg env w).1.bz.comments = w.bz.comments)) := by
  constructor
  · intro hm
    rw [update_sync_fetch_failure cfg env w e hm]
    exact ⟨rfl, rfl⟩
  · intro hm hp hmerge hmoz hcls
    obtain ⟨path, hwt, hlk, hret, hcm⟩ :=
      update_sync_observables cfg env w m p t hm hp hmerge hmoz hcls
    constructor
    · intro htr
      refine ⟨hret, ?_⟩
      rcases wptToGecko_cases cfg env w.sync.bug env.iterCommits
          ⟨[], [], []⟩ _ rfl with
        ⟨h1, -⟩ | ⟨-, pre, c, post, hcs, -, -, ee, hsub⟩
      · rw [htr] at h1
        exact absurd h1 Bool.false_ne_true
      · refine ⟨pre, c, post, ee, hcs, ?_⟩
        rcases hsub with ⟨-, hcmt, -⟩ | ⟨out, -, -, -, hcmt, -⟩
        · left
          rw [hcm, hcmt]
          rfl
        · right
          rw [hcm, hcmt]
          rfl
    · intro htr
      refine ⟨hret, ?_⟩
      rcases wptToGecko_cases cfg env w.sync.bug env.iterCommits
          ⟨[], [], []⟩ _ rfl with
        ⟨-, h2, -⟩ | ⟨h1, -⟩
      · rw [hcm, h2]
        simp
      · rw [htr] at h1
        exact Bool.noConfusion h1

/-- Witness for the amended C6: a failing baseline fetch on the fixture
posts the obtaining-PR comment and returns `False`. -/
theorem update_sync_error_reporting_witness :
    (update_sync cfgEx envFetchFail wEx).2 = .ok (some false) ∧
    (update_sync cfgEx envFetchFail wEx).1.bz.comments =
      wEx.bz.comments ++
        [(wEx.sync.bug, obtainFailMsg wEx.sync.pr_id "net down")] :=
  (update_sync_error_reporting cfgEx envFetchFail wEx "m" "p" "t"
    { msg := "net down" }).1 rfl

/-- C8: for every default value, calling `choose_bug_component` with an
empty set of changed paths returns the default unchanged; the statement
holds for every classification-query oracle `fileInfo`, so the query is
never consulted. -/
theorem choose_bug_component_empty_default (cfg : Config)
    (fileInfo : List String → String) (default : List String) :
    choose_bug_component cfg fileInfo [] default = some default := rfl

/-- C9: `get_files_changed` splits the collaborator output on newlines and
never returns an empty set: on the empty string it returns the singleton
set containing the empty string.  Hence `(files_changed).isEmpty` is always
`false`, so the empty-input default branch of `choose_bug_component` is
never taken when the input comes from `get_files_changed`. -/
theorem get_files_changed_ne_nil :
    (∀ output : String, get_files_changed output ≠ [] ∧
      (get_files_changed output).isEmpty = false) ∧
    get_files_changed "" = [""] := by
  refine ⟨fun output => ?_, by decide⟩
  have h : get_files_changed output ≠ [] :=
    pySet_cons_of_ne_nil _ (pySplit_ne_nil "\n" output)
  refine ⟨h, ?_⟩
  cases hc : get_files_changed output with
  | nil => exact absurd hc h
  | cons x xs => rfl

/-- The safety precondition of the classification-output parser: every line
beginning with a space is preceded (anywhere earlier in the output) by at
least one line not beginning with a space (a header line). -/
def headerPrecedes (lines : List String) : Prop :=
  ∀ i, (h : i < lines.length) →
    pyStartsWith (lines.get ⟨i, h⟩) " " = true →
    ∃ j, ∃ hj : j < i,
      pyStartsWith (lines.get ⟨j, Nat.lt_trans hj h⟩) " " = false

/-- C10: the parsing loop of `choose_bug_component` hits its
`assert current is not None` (modelled as the `none` result) exactly when
an indented line appears before any header line; in particular any output
whose first line begins with a space fails the assertion, and under the
precondition that every indented detail line is preceded by a header line
the assertion always holds. -/
theorem choose_bug_component_assert_safety :
    (∀ (output line : String) (rest : List String),
      pySplit "\n" output = line :: rest → pyStartsWith line " " = true →
      parseComponents output = none) ∧
    (∀ output : String, headerPrecedes (pySplit "\n" output) →
      parseComponents output ≠ none) := by
  constructor
  · intro output line rest hsplit hstart
    unfold parseComponents
    rw [hsplit, countLines]
    rw [if_pos hstart]
  · intro output hp
    have hsne := pySplit_ne_nil "\n" output
    obtain ⟨line, rest, hsplit⟩ := List.exists_cons_of_ne_nil hsne
    by_cases hstart : pyStartsWith line " " = true
    · rw [hsplit] at hp
      obtain ⟨j, hj, -⟩ := hp 0 (by simp) (by simpa using hstart)
      exact absurd hj (Nat.not_lt_zero j)
    · unfold parseComponents
      rw [hsplit, countLines, if_neg hstart]
      exact countLines_some_ne_none rest (pyStrip line) []

/-- Witness for C10 at concrete outputs: an output whose first line is
indented fails the assertion; a header line followed by a detail line
satisfies the precondition and parses. -/
theorem choose_bug_component_assert_safety_witness :
    parseComponents " x" = none ∧ parseComponents "A\n x" ≠ none :=
  ⟨choose_bug_component_assert_safety.1 " x" " x" [] (by decide) (by decide),
   choose_bug_component_assert_safety.2 "A\n x" (by
     have hlines : pySplit "\n" "A\n x" = ["A", " x"] := by decide
     rw [hlines]
     intro i h hs
     match i, h, hs with
     | 0, h, hs => exact absurd (show pyStartsWith "A" " " = true from hs) (by decide)
     | 1, h, hs =>
       exact ⟨0, Nat.zero_lt_one, show pyStartsWith "A" " " = false from by decide⟩)⟩

/-- C4: on a non-empty parsed classification result, `choose_bug_component`
returns the classification with the highest detail-line frequency; when the
top classification is the sentinel UNKNOWN and a second distinct
classification exists it returns the best non-UNKNOWN classification
instead; when the only candidate is UNKNOWN, or the result set is empty, it
returns the default.  The returned classification `c` is reported as the
Python `component.split(" :: ")` value. -/
theorem choose_bug_component_majority (cfg : Config)
    (fileInfo : List String → String) (files default : List String)
    (comps : List (String × Nat)) (hfe : files ≠ [])
    (hp : parseComponents
      (fileInfo (files.map (fun item => os_path_join cfg.wptPath item))) =
      some comps) :
    (comps = [] →
      choose_bug_component cfg fileInfo files default = some default) ∧
    ((∀ x ∈ comps, x.1 = "UNKNOWN") →
      choose_bug_component cfg fileInfo files default = some default) ∧
    ((∃ x ∈ comps, x.1 ≠ "UNKNOWN") →
      ∃ c ∈ comps, c.1 ≠ "UNKNOWN" ∧
        (∀ d ∈ comps, d.1 ≠ "UNKNOWN" → d.2 ≤ c.2) ∧
        choose_bug_component cfg fileInfo files default =
          some (pySplit " :: " c.1) ∧
        ((∀ d ∈ comps, d.2 ≤ c.2) ∨
          ∃ u ∈ comps, u.1 = "UNKNOWN" ∧ ∀ d ∈ comps, d.2 ≤ u.2)) := by
  have heq := choose_bug_component_eq cfg fileInfo files default comps hfe hp
  by_cases hce : comps = []
  · subst hce
    refine ⟨fun _ => by rw [heq]; rfl, fun _ => by rw [heq]; rfl, fun hx => ?_⟩
    obtain ⟨x, hx1, -⟩ := hx
    exact absurd hx1 (List.not_mem_nil x)
  · obtain ⟨t, ts, hs⟩ :=
      List.exists_cons_of_ne_nil (insertionSort_ne_nil comps hce)
    have hperm := List.perm_insertionSort byCountDesc comps
    have hsorted := List.sorted_insertionSort byCountDesc comps
    rw [hs] at hperm hsorted
    have htmem : t ∈ comps := hperm.subset (List.mem_cons_self t ts)
    have hmax : ∀ d ∈ comps, d.2 ≤ t.2 := by
      intro d hd
      rcases List.mem_cons.mp (hperm.symm.subset hd) with rfl | hdts
      · exact Nat.le_refl _
      · exact (byCountDesc_iff t d).mp ((List.sorted_cons.mp hsorted).1 d hdts)
    have hkeys : (comps.map Prod.fst).Nodup := parseComponents_nodup _ comps hp
    have hskeys : ((t :: ts).map Prod.fst).Nodup :=
      ((hperm.map Prod.fst).nodup_iff).mpr hkeys
    have hcie : comps.isEmpty = false := by
      cases comps with
      | nil => exact absurd rfl hce
      | cons a l => rfl
    rw [hcie] at heq
    simp only [Bool.false_eq_true, if_false, hs] at heq
    by_cases htu : t.1 = "UNKNOWN"
    · refine ⟨fun h0 => absurd h0 hce, fun hall => ?_, fun hx => ?_⟩
      · -- every key is UNKNOWN: distinct keys force a single candidate
        have hts : ts = [] := by
          cases ts with
          | nil => rfl
          | cons u us =>
            have hum : u ∈ comps :=
              hperm.subset (List.mem_cons_of_mem t (List.mem_cons_self u us))
            have : t.1 ∈ (u :: us).map Prod.fst := by
              rw [htu, ← hall u hum]
              exact List.mem_map_of_mem Prod.fst (List.mem_cons_self u us)
            exact absurd this (List.nodup_cons.mp hskeys).1
        rw [hts] at heq
        rw [heq, reduceComponents_single_unknown default t htu]
      · -- a non-UNKNOWN candidate exists: it hides in the tail of the sort
        obtain ⟨x, hxm, hxne⟩ := hx
        have hxts : x ∈ ts := by
          rcases List.mem_cons.mp (hperm.symm.subset hxm) with rfl | h2
          · exact absurd htu hxne
          · exact h2
        obtain ⟨u, us, rfl⟩ : ∃ u us, ts = u :: us := by
          cases ts with
          | nil => exact absurd hxts (List.not_mem_nil x)
          | cons u us => exact ⟨u, us, rfl⟩
        have hum : u ∈ comps :=
          hperm.subset (List.mem_cons_of_mem t (List.mem_cons_self u us))
        have hukey : u.1 ≠ "UNKNOWN" := by
          intro hu
          apply (List.nodup_cons.mp hskeys).1
          rw [htu, ← hu]
          exact List.mem_map_of_mem Prod.fst (List.mem_cons_self u us)
        have husorted := (List.sorted_cons.mp hsorted).2
        have humax : ∀ d ∈ comps, d.1 ≠ "UNKNOWN" → d.2 ≤ u.2 := by
          intro d hd hdne
          rcases List.mem_cons.mp (hperm.symm.subset hd) with rfl | h2
          · exact absurd htu hdne
          · rcases List.mem_cons.mp h2 with rfl | h3
            · exact Nat.le_refl _
            · exact (byCountDesc_iff u d).mp
                ((List.sorted_cons.mp husorted).1 d h3)
        have hcomp : choose_bug_component cfg fileInfo files default =
            some (pySplit " :: " u.1) := by
          rw [heq, reduceComponents_second default t u us htu hukey]
        exact ⟨u, hum, hukey, humax, hcomp, Or.inr ⟨t, htmem, htu, hmax⟩⟩
    · -- the top of the sort is already non-UNKNOWN
      have hcomp : choose_bug_component cfg fileInfo files default =
          some (pySplit " :: " t.1) := by
        rw [heq, reduceComponents_head default t ts htu]
      refine ⟨fun h0 => absurd h0 hce,
        fun hall => absurd (hall t htmem) htu, fun _ => ?_⟩
      exact ⟨t, htmem, htu, fun d hd _ => hmax d hd, hcomp, Or.inl hmax⟩

/-- Witness for C4 at the counts of the claim: UNKNOWN with five detail
lines and "Core :: DOM" with two; the classifier picks "Core :: DOM". -/
theorem choose_bug_component_majority_witness :
    ∃ c ∈ [("UNKNOWN", 5), ("Core :: DOM", 2)], c.1 ≠ "UNKNOWN" ∧
      (∀ d ∈ [("UNKNOWN", 5), ("Core :: DOM", 2)],
        d.1 ≠ "UNKNOWN" → d.2 ≤ c.2) ∧
      choose_bug_component ⟨"testing/web-platform/tests", "central"⟩
        (fun _ => "UNKNOWN\n a\n b\n c\n d\n e\nCore :: DOM\n f\n g")
        ["x"] ["Testing", "web-platform-tests"] =
        some (pySplit " :: " c.1) ∧
      ((∀ d ∈ [("UNKNOWN", 5), ("Core :: DOM", 2)], d.2 ≤ c.2) ∨
        ∃ u ∈ [("UNKNOWN", 5), ("Core :: DOM", 2)], u.1 = "UNKNOWN" ∧
          ∀ d ∈ [("UNKNOWN", 5), ("Core :: DOM", 2)], d.2 ≤ u.2) :=
  (choose_bug_component_majority ⟨"testing/web-platform/tests", "central"⟩
    (fun _ => "UNKNOWN\n a\n b\n c\n d\n e\nCore :: DOM\n f\n g")
    ["x"] ["Testing", "web-platform-tests"]
    [("UNKNOWN", 5), ("Core :: DOM", 2)]
    (by decide) (by decide)).2.2 (by decide)

/-- The second concrete instance named by C4: counts A three and B seven
give B. -/
lemma choose_bug_component_majority_example :
    choose_bug_component ⟨"p", "c"⟩
      (fun _ => "A\n a\n b\n c\nB\n d\n e\n f\n g\n h\n i\n j")
      ["x"] ["Testing", "web-platform-tests"] = some ["B"] := by decide

end WptSync
